import Mathlib

/-!
Verification of the HL7v2 inspection tool (`scripts/hl7v2-inspect.py`).

The Python source is shallowly embedded below: Python strings are Lean
`String`s, Python `str.split` / `str.strip` / `str.join` / `str.upper` /
`in` / `startswith` / `int(...)` are modelled by executable Lean functions
(`pySplit`, `pyStrip`, `pyJoin`, `pyUpper`, `pyContains`, `pyStartsWith`,
`pythonInt`), `print` output is modelled as the list of printed strings,
and a Python `IndexError` is modelled by `Except Unit`.
-/

namespace HL7Inspect

/-- ASCII whitespace recognized by Python `str.strip()`. -/
def isPySpace (c : Char) : Bool :=
  c == ' ' || c == '\t' || c == '\n' || c == '\r' || c == '\x0b' || c == '\x0c'

/-- Python `s.strip()`: drop leading and trailing whitespace. -/
def pyStrip (s : String) : String :=
  String.mk (((s.toList.dropWhile isPySpace).reverse.dropWhile isPySpace).reverse)

/-- Split a character list on a delimiter, keeping empty chunks
(the semantics of Python `str.split` with a one-character separator). -/
def splitChs (c : Char) : List Char → List (List Char)
  | [] => [[]]
  | a :: rest =>
    match splitChs c rest with
    | [] => [[]]
    | h :: t => if a = c then [] :: h :: t else (a :: h) :: t

/-- Python `s.split(c)` for a one-character separator `c`. -/
def pySplit (c : Char) (s : String) : List String :=
  (splitChs c s.toList).map String.mk

/-- Join character chunks with a one-character separator. -/
def joinChs (c : Char) : List (List Char) → List Char
  | [] => []
  | [x] => x
  | x :: y :: t => x ++ c :: joinChs c (y :: t)

/-- Python `sep.join(xs)`. -/
def pyJoin (sep : String) : List String → String
  | [] => ""
  | [x] => x
  | x :: y :: t => x ++ sep ++ pyJoin sep (y :: t)

/-- Python `c in s` for a single character `c`. -/
def pyContains (c : Char) (s : String) : Bool := s.toList.contains c

/-- Python `s.startswith(p)`. -/
def pyStartsWith (p s : String) : Bool := p.toList.isPrefixOf s.toList

/-- Python `s.upper()` (ASCII). -/
def pyUpper (s : String) : String := String.mk (s.toList.map Char.toUpper)

/-- Python list indexing `l[i]` with negative-index support; `none`
models an `IndexError`. -/
def pyGet (l : List String) (i : Int) : Option String :=
  if 0 ≤ i then l.get? i.toNat
  else if 0 ≤ i + l.length then l.get? (i + l.length).toNat
  else none

/-- Digit-run tail of Python `int(...)`: digits with single underscores
allowed between digits. -/
def pyDigitsAux : List Char → Nat → Option Nat
  | [], acc => some acc
  | '_' :: c :: rest, acc =>
    if c.isDigit then pyDigitsAux rest (acc * 10 + (c.toNat - 48)) else none
  | ['_'], _ => none
  | c :: rest, acc =>
    if c.isDigit then pyDigitsAux rest (acc * 10 + (c.toNat - 48)) else none

/-- Nonempty digit sequence of Python `int(...)`. -/
def pyNat : List Char → Option Nat
  | [] => none
  | c :: rest => if c.isDigit then pyDigitsAux rest (c.toNat - 48) else none

/-- Python `int(s)`: optional surrounding whitespace, optional sign,
then digits; `none` models a `ValueError`. -/
def pythonInt (s : String) : Option Int :=
  match (pyStrip s).toList with
  | '+' :: rest => (pyNat rest).map (fun n => (n : Int))
  | '-' :: rest => (pyNat rest).map (fun n => -(n : Int))
  | l => (pyNat l).map (fun n => (n : Int))

/-- Python `range(a, b)` over integers. -/
def intRange (a b : Int) : List Int :=
  (List.range (b - a).toNat).map (fun k => a + (k : Int))

/-- `SEGMENT_NAMES` from `hl7v2-inspect.py` lines 15-18. -/
def SEGMENT_NAMES : List String :=
  ["MSH", "PID", "PV1", "PV2", "PD1", "NK1", "ORC", "OBR", "OBX",
   "RXA", "RXR", "SPM", "NTE", "AL1", "DG1", "GT1", "IN1", "IN2",
   "IN3", "TQ1", "TQ2", "SFT", "UAC", "ARV", "PRT", "EVN", "MRG",
   "ROL", "FT1", "ACC", "UB1", "UB2", "RXE", "RXD", "RXG", "RXC"]

/-- `isLowerAZ c` holds for the characters matched by the regex class
`[a-z]`. -/
def isLowerAZ (c : Char) : Bool := 'a' ≤ c && c ≤ 'z'

/-- Drop one leading whitespace character if present (the `\s?` tail of
the RTF control-word regex). -/
def dropOneSpace : List Char → List Char
  | [] => []
  | s :: t => if isPySpace s then t else s :: t

theorem dropWhile_length_le (p : Char → Bool) (l : List Char) :
    (l.dropWhile p).length ≤ l.length := by
  induction l with
  | nil => simp
  | cons a t ih =>
    simp only [List.dropWhile]
    split
    · exact Nat.le_succ_of_le ih
    · simp

theorem dropOneSpace_length_le (l : List Char) :
    (dropOneSpace l).length ≤ l.length := by
  cases l with
  | nil => simp [dropOneSpace]
  | cons s t =>
    simp only [dropOneSpace]
    split <;> simp

/-- `re.sub(r"\\[a-z]+\d*\s?", "", content)` from `extract_messages`:
remove each backslash-introduced control word (greedy lowercase run,
then greedy digit run, then at most one whitespace character). -/
def rtfCtrl : List Char → List Char
  | [] => []
  | a :: rest =>
    if a = '\\' && (rest.head?.map isLowerAZ).getD false then
      rtfCtrl (dropOneSpace ((rest.dropWhile isLowerAZ).dropWhile Char.isDigit))
    else a :: rtfCtrl rest
termination_by l => l.length
decreasing_by
  · simp only [List.length_cons]
    have h1 := dropOneSpace_length_le ((rest.dropWhile isLowerAZ).dropWhile Char.isDigit)
    have h2 := dropWhile_length_le Char.isDigit (rest.dropWhile isLowerAZ)
    have h3 := dropWhile_length_le isLowerAZ rest
    omega
  · simp only [List.length_cons]
    omega

/-- The RTF pre-filter of `extract_messages` (lines 23-26): if the
content starts with the RTF marker, strip control words and braces. -/
def preprocess (content : String) : String :=
  if pyStartsWith "\x7b\\rtf" content then
    String.mk ((rtfCtrl content.toList).filter (fun c => c != '\x7b' && c != '\x7d'))
  else content

/-- The leading token of a line: `line.split("|")[0].strip()`. -/
def retainedSeg (line : String) : String :=
  pyStrip ((pySplit '|' line).headI)

/-- The retention test of `extract_messages` line 34:
`seg in SEGMENT_NAMES or (seg == "MSH" and "|" in line)`. -/
def isRetainedLine (line : String) : Bool :=
  SEGMENT_NAMES.contains (retainedSeg line) ||
    (retainedSeg line == "MSH" && pyContains '|' line)

/-- The line-filtering loop of `extract_messages` (lines 28-35):
split on newlines, strip, drop empty lines, keep retained lines. -/
def extractLines (content : String) : List String :=
  ((pySplit '\n' content).map pyStrip).filter
    (fun l => l != "" && isRetainedLine l)

/-- `line.startswith("MSH|")`, the message-grouping test of line 41. -/
def isHeaderLine (line : String) : Bool := pyStartsWith "MSH|" line

/-- The message-grouping loop of `extract_messages` (lines 38-48). -/
def groupLoop : List String → List (List String) → List String → List (List String)
  | [], msgs, current => if current.isEmpty then msgs else msgs ++ [current]
  | l :: rest, msgs, current =>
    if isHeaderLine l then
      groupLoop rest (if current.isEmpty then msgs else msgs ++ [current]) [l]
    else
      groupLoop rest msgs (current ++ [l])

/-- The retained segment lines of a file: RTF pre-filter then line filter. -/
def retainedLines (content : String) : List String :=
  extractLines (preprocess content)

/-- `extract_messages` (lines 21-50). -/
def extract_messages (content : String) : List (List String) :=
  groupLoop (retainedLines content) [] []

/-- `describe_component` (lines 53-64). -/
def describe_component (value : String) : String :=
  if value = "" then "(empty)"
  else if pyContains '^' value then
    "(" ++ toString ((pySplit '^' value).filter (fun p => p != "")).length ++
      "/" ++ toString (pySplit '^' value).length ++ " components)"
  else if pyContains '~' value then
    "(" ++ toString (pySplit '~' value).length ++ " repeats)"
  else
    "(len=" ++ toString value.toList.length ++ ")"

/-- Loop body of the populated-field loop of `show_structure`
(lines 83-88), for one 1-based field index `j` and raw value `val`. -/
def structureFieldEntry (seg : String) (j : Nat) (val : String) : List String :=
  if seg = "MSH" ∧ j = 1 then []
  else if pyStrip val ≠ "" then [toString j ++ describe_component val]
  else []

/-- The populated-field loop of `show_structure`, starting at index `j`. -/
def structureEntries (seg : String) : Nat → List String → List String
  | _, [] => []
  | j, v :: rest => structureFieldEntry seg j v ++ structureEntries seg (j + 1) rest

/-- One printed line of `show_structure` (lines 72-90). -/
def structureLineOut (line : String) : String :=
  "  " ++ (pySplit '|' line).headI ++ " (" ++
    toString ((pySplit '|' line).length - 1) ++ " fields) populated: " ++
    pyJoin ", " (structureEntries (pySplit '|' line).headI 1 (pySplit '|' line).tail)

/-- The message loop of `show_structure` (lines 69-92); `total` is the
message count, `i` the 1-based message number. -/
def showStructureAux (total : Nat) : Nat → List (List String) → List String
  | _, [] => []
  | i, msg :: rest =>
    (if 1 < total then ["=== Message " ++ toString i ++ " of " ++ toString total ++ " ==="] else [])
      ++ msg.map structureLineOut
      ++ (if 1 < total then [""] else [])
      ++ showStructureAux total (i + 1) rest

/-- `show_structure` (lines 67-92), as the list of printed lines. -/
def show_structure (messages : List (List String)) : List String :=
  showStructureAux messages.length 1 messages

/-- The skip test of `show_values` line 103:
`segment_filter and seg != segment_filter`. -/
def valuesSkip : Option String → String → Bool
  | some fl, seg => fl != "" && seg != fl
  | none, _ => false

/-- The `" | ".join(...)` component items of `show_values`
(lines 114-117), 1-based index `k`. -/
def compParts : Nat → List String → List String
  | _, [] => []
  | k, c :: rest =>
    (if c = "" then "C" ++ toString k ++ "=(empty)"
     else "C" ++ toString k ++ "=" ++ c) :: compParts (k + 1) rest

/-- `" | ".join(f"C{k+1}={c}" ...)` of `show_values`. -/
def compStr (components : List String) : String :=
  pyJoin " | " (compParts 1 components)

/-- The per-repeat lines of `show_values` (lines 120-130), with field
index `j` and 1-based repeat index `r`. -/
def valuesRepeatLines (j : Nat) : Nat → List String → List String
  | _, [] => []
  | r, rep :: rest =>
    (if pyContains '^' rep then
      "    Field " ++ toString j ++ "[" ++ toString r ++ "]: " ++ compStr (pySplit '^' rep)
     else
      "    Field " ++ toString j ++ "[" ++ toString r ++ "]: " ++ rep)
      :: valuesRepeatLines j (r + 1) rest

/-- Loop body of the field loop of `show_values` (lines 107-134), for
one 1-based field index `j` and raw value `val`. -/
def valuesFieldLines (seg : String) (j : Nat) (val : String) : List String :=
  if seg = "MSH" ∧ j = 1 then ["    Field " ++ toString j ++ ": (encoding chars)"]
  else if pyStrip val ≠ "" then
    (if pyContains '^' val then
      ["    Field " ++ toString j ++ ": " ++ compStr (pySplit '^' val)]
     else if pyContains '~' val then valuesRepeatLines j 1 (pySplit '~' val)
     else ["    Field " ++ toString j ++ ": " ++ val])
  else []

/-- The field loop of `show_values`, starting at index `j`. -/
def valuesEntries (seg : String) : Nat → List String → List String
  | _, [] => []
  | j, v :: rest => valuesFieldLines seg j v ++ valuesEntries seg (j + 1) rest

/-- The per-line output of `show_values` (lines 100-134). -/
def valuesLineOut (filter : Option String) (line : String) : List String :=
  if valuesSkip filter (pySplit '|' line).headI then []
  else ("  " ++ (pySplit '|' line).headI ++ ":")
    :: valuesEntries (pySplit '|' line).headI 1 (pySplit '|' line).tail

/-- The line loop of `show_values` over one message. -/
def valuesLines (filter : Option String) : List String → List String
  | [] => []
  | l :: rest => valuesLineOut filter l ++ valuesLines filter rest

/-- The message loop of `show_values` (lines 97-136). -/
def showValuesAux (filter : Option String) (total : Nat) :
    Nat → List (List String) → List String
  | _, [] => []
  | i, msg :: rest =>
    (if 1 < total then ["=== Message " ++ toString i ++ " of " ++ toString total ++ " ==="] else [])
      ++ valuesLines filter msg
      ++ (if 1 < total then [""] else [])
      ++ showValuesAux filter total (i + 1) rest

/-- `show_values` (lines 95-136), as the list of printed lines. -/
def show_values (messages : List (List String)) (filter : Option String) : List String :=
  showValuesAux filter messages.length 1 messages

/-- Selector parsing shared by `show_field` and `verify_field`
(lines 141-146 and 184-189): split on `.` into exactly two tokens and
parse the second as a Python int; `none` models the usage-error exit. -/
def parseSpec (spec : String) : Option (String × Int) :=
  match pySplit '.' spec with
  | [a, b] => (pythonInt b).map (fun n => (a, n))
  | _ => none

/-- The component lines of `show_field` (lines 170-172), 1-based `k`. -/
def componentLines : Nat → List String → List String
  | _, [] => []
  | k, c :: rest =>
    ("    ." ++ toString k ++ ": " ++ (if c = "" then "(empty)" else c))
      :: componentLines (k + 1) rest

/-- The repeat lines of `show_field` (lines 176-177), 1-based `r`. -/
def fieldRepeatLines : Nat → List String → List String
  | _, [] => []
  | r, rep :: rest =>
    ("    [" ++ toString r ++ "]: " ++ rep) :: fieldRepeatLines (r + 1) rest

/-- Loop body of `show_field` for one segment line (lines 152-179);
`.error ()` models an uncaught `IndexError` from `parts[field_num]`. -/
def showFieldLine (segType : String) (n : Int) (line : String) :
    Except Unit (List String) :=
  if (pySplit '|' line).headI ≠ segType then .ok []
  else if ((pySplit '|' line).length : Int) ≤ n then
    .ok ["  " ++ (pySplit '|' line).headI ++ "-" ++ toString n ++
      ": (not present, only " ++ toString ((pySplit '|' line).length - 1) ++ " fields)"]
  else
    match pyGet (pySplit '|' line) n with
    | none => .error ()
    | some val =>
      if pyStrip val = "" then
        .ok ["  " ++ (pySplit '|' line).headI ++ "-" ++ toString n ++ ": (empty)"]
      else if pyContains '^' val then
        .ok (("  " ++ (pySplit '|' line).headI ++ "-" ++ toString n ++ ": " ++ val)
          :: componentLines 1 (pySplit '^' val))
      else if pyContains '~' val then
        .ok (("  " ++ (pySplit '|' line).headI ++ "-" ++ toString n ++ ": (" ++
            toString (pySplit '~' val).length ++ " repeats)")
          :: fieldRepeatLines 1 (pySplit '~' val))
      else
        .ok ["  " ++ (pySplit '|' line).headI ++ "-" ++ toString n ++ ": " ++ val]

/-- The line loop of `show_field` over one message. -/
def showFieldLinesRun (segType : String) (n : Int) :
    List String → Except Unit (List String)
  | [] => .ok []
  | l :: rest =>
    match showFieldLine segType n l with
    | .error e => .error e
    | .ok out =>
      match showFieldLinesRun segType n rest with
      | .error e => .error e
      | .ok out2 => .ok (out ++ out2)

/-- The message loop of `show_field` (lines 149-179). -/
def showFieldAux (segType : String) (n : Int) (total : Nat) :
    Nat → List (List String) → Except Unit (List String)
  | _, [] => .ok []
  | i, msg :: rest =>
    match showFieldLinesRun segType n msg with
    | .error e => .error e
    | .ok out =>
      match showFieldAux segType n total (i + 1) rest with
      | .error e => .error e
      | .ok out2 =>
        .ok ((if 1 < total then ["--- Message " ++ toString i ++ " ---"] else [])
          ++ out ++ out2)

/-- The post-parse body of `show_field`, with the segment id already
uppercased. -/
def showFieldMsgs (messages : List (List String)) (segType : String) (n : Int) :
    Except Unit (List String) :=
  showFieldAux segType n messages.length 1 messages

/-- `show_field` (lines 139-179): `none` is the malformed-selector
exit, `some` the view's outcome. -/
def show_field (messages : List (List String)) (spec : String) :
    Option (Except Unit (List String)) :=
  (parseSpec spec).map (fun p => showFieldMsgs messages (pyUpper p.1) p.2)

/-- Loop body of `verify_field` for one segment line (lines 195-222). -/
def verifyLine (segType : String) (n : Int) (line : String) :
    Except Unit (List String) :=
  if (pySplit '|' line).headI ≠ segType then .ok []
  else
    let total : Int := ((pySplit '|' line).length : Int) - 1
    if total < n then
      .ok ["  " ++ (pySplit '|' line).headI ++ ": has " ++ toString total ++
            " fields, requested field " ++ toString n ++ " is beyond end",
           "  Need " ++ toString (n - total) ++ " more pipes to reach field " ++ toString n]
    else
      match (if n < ((pySplit '|' line).length : Int)
             then pyGet (pySplit '|' line) n else some "(absent)") with
      | none => .error ()
      | some val =>
        .ok ["  " ++ (pySplit '|' line).headI ++ " (" ++ toString total ++
              " fields total), field " ++ toString n ++ " = " ++
              (if pyStrip val ≠ "" then val else "(empty)"),
             "  Context:",
             pyJoin "\n" ((intRange (max 1 (n - 2)) (min (total + 1) (n + 3))).map
               (fun j =>
                 "    Field " ++ toString j ++ ": " ++
                   (if pyStrip ((if j < ((pySplit '|' line).length : Int)
                                 then pyGet (pySplit '|' line) j else some "").getD "") ≠ ""
                    then ((if j < ((pySplit '|' line).length : Int)
                           then pyGet (pySplit '|' line) j else some "").getD "")
                    else "(empty)") ++
                   (if j = n then " <<< " else "")))]

/-- The line loop of `verify_field` over one message. -/
def verifyLinesRun (segType : String) (n : Int) :
    List String → Except Unit (List String)
  | [] => .ok []
  | l :: rest =>
    match verifyLine segType n l with
    | .error e => .error e
    | .ok out =>
      match verifyLinesRun segType n rest with
      | .error e => .error e
      | .ok out2 => .ok (out ++ out2)

/-- The message loop of `verify_field` (lines 192-222). -/
def verifyAux (segType : String) (n : Int) (total : Nat) :
    Nat → List (List String) → Except Unit (List String)
  | _, [] => .ok []
  | i, msg :: rest =>
    match verifyLinesRun segType n msg with
    | .error e => .error e
    | .ok out =>
      match verifyAux segType n total (i + 1) rest with
      | .error e => .error e
      | .ok out2 =>
        .ok ((if 1 < total then ["--- Message " ++ toString i ++ " ---"] else [])
          ++ out ++ out2)

/-- The post-parse body of `verify_field`. -/
def verifyMsgs (messages : List (List String)) (segType : String) (n : Int) :
    Except Unit (List String) :=
  verifyAux segType n messages.length 1 messages

/-- `verify_field` (lines 182-222). -/
def verify_field (messages : List (List String)) (spec : String) :
    Option (Except Unit (List String)) :=
  (parseSpec spec).map (fun p => verifyMsgs messages (pyUpper p.1) p.2)

/-- `Bool` projection of an `Except` outcome: `true` iff no exception. -/
def exceptOk : Except Unit (List String) → Bool
  | .ok _ => true
  | .error _ => false

/-- Python truthiness of an `argparse` string option (`None` and `""`
are falsy). -/
def strTruthy : Option String → Bool
  | some s => s != ""
  | none => false

/-- Exit code contributed by a selector view: 1 on malformed selector
or uncaught exception, 0 on completion. -/
def runExit : Option (Except Unit (List String)) → Nat
  | none => 1
  | some (.error _) => 1
  | some (.ok _) => 0

/-- The exit code of `main` (lines 225-259): `content?` is `none` when
the file is not found. -/
def mainExit (content? : Option String) (argVerify argField : Option String)
    (argValues : Bool) (argSegment : Option String) : Nat :=
  match content? with
  | none => 1
  | some content =>
    if extract_messages content = [] then 1
    else if strTruthy argVerify then
      runExit (verify_field (extract_messages content) (argVerify.getD ""))
    else if strTruthy argField then
      runExit (show_field (extract_messages content) (argField.getD ""))
    else
      let _out := if argValues then show_values (extract_messages content) argSegment
                  else show_structure (extract_messages content)
      0

/-! ### Basic facts about the string model -/

theorem string_eq_empty_iff (s : String) : s = "" ↔ s.toList = [] := by
  constructor
  · intro h; rw [h]; rfl
  · intro h
    cases s with
    | mk d =>
      have : d = [] := h
      rw [this]

theorem splitChs_ne_nil (c : Char) (l : List Char) : splitChs c l ≠ [] := by
  cases l with
  | nil => simp [splitChs]
  | cons a rest =>
    simp only [splitChs]
    split
    · simp
    · split <;> simp

theorem joinChs_splitChs (c : Char) (l : List Char) :
    joinChs c (splitChs c l) = l := by
  induction l with
  | nil => rfl
  | cons a rest ih =>
    simp only [splitChs]
    cases hs : splitChs c rest with
    | nil => exact absurd hs (splitChs_ne_nil c rest)
    | cons h t =>
      rw [hs] at ih
      by_cases hac : a = c
      · subst hac
        simp only [if_pos rfl, joinChs]
        simpa using ih
      · simp only [if_neg hac]
        cases t with
        | nil =>
          simp only [joinChs] at ih ⊢
          rw [ih]
        | cons y t2 =>
          simp only [joinChs] at ih ⊢
          rw [List.cons_append, ih]

theorem pyJoin_map_mk (c : Char) (ls : List (List Char)) :
    pyJoin (String.mk [c]) (ls.map String.mk) = String.mk (joinChs c ls) := by
  induction ls with
  | nil => rfl
  | cons x t ih =>
    cases t with
    | nil => rfl
    | cons y t2 =>
      simp only [List.map, pyJoin, joinChs] at ih ⊢
      rw [ih]
      show String.mk ((x ++ [c]) ++ joinChs c (y :: t2)) =
        String.mk (x ++ c :: joinChs c (y :: t2))
      rw [List.append_assoc]
      rfl

/-- Splitting on a one-character delimiter and rejoining with it is the
identity, for every string. -/
theorem pyJoin_pySplit (c : Char) (s : String) :
    pyJoin (String.mk [c]) (pySplit c s) = s := by
  unfold pySplit
  rw [pyJoin_map_mk, joinChs_splitChs]
  exact congrArg _ rfl |>.trans (by cases s; rfl)

/-! ### The leading token of a header line -/

theorem splitChs_msh (t : List Char) :
    splitChs '|' ('M' :: 'S' :: 'H' :: '|' :: t) = ['M', 'S', 'H'] :: splitChs '|' t := by
  simp only [splitChs]
  cases hs : splitChs '|' t with
  | nil => exact absurd hs (splitChs_ne_nil _ _)
  | cons h t2 => simp

theorem headI_pySplit_of_header (l : String) (h : isHeaderLine l = true) :
    (pySplit '|' l).headI = "MSH" := by
  unfold isHeaderLine pyStartsWith at h
  rw [List.isPrefixOf_iff_prefix] at h
  obtain ⟨t, ht⟩ := h
  have hmsh : ("MSH|".toList : List Char) = ['M', 'S', 'H', '|'] := rfl
  rw [hmsh] at ht
  have hlt : l.toList = 'M' :: 'S' :: 'H' :: '|' :: t := ht.symm
  unfold pySplit
  rw [hlt, splitChs_msh]
  rfl

/-! ### Claim C8: split/join round trip for retained segment lines -/

theorem groupLoop_mem (p : String → Prop) :
    ∀ (lines : List String) (msgs : List (List String)) (current : List String),
      (∀ m ∈ msgs, ∀ l ∈ m, p l) → (∀ l ∈ current, p l) → (∀ l ∈ lines, p l) →
      ∀ m ∈ groupLoop lines msgs current, ∀ l ∈ m, p l := by
  intro lines
  induction lines with
  | nil =>
    intro msgs current hm hc _ m hmem l hl
    simp only [groupLoop] at hmem
    split at hmem
    · exact hm m hmem l hl
    · rcases List.mem_append.mp hmem with h | h
      · exact hm m h l hl
      · simp only [List.mem_singleton] at h
        exact hc l (h ▸ hl)
  | cons a rest ih =>
    intro msgs current hm hc hlines m hmem l hl
    simp only [groupLoop] at hmem
    split at hmem
    · refine ih _ _ ?_ ?_ ?_ m hmem l hl
      · intro m' hm' l' hl'
        split at hm'
        · exact hm m' hm' l' hl'
        · rcases List.mem_append.mp hm' with h | h
          · exact hm m' h l' hl'
          · simp only [List.mem_singleton] at h
            exact hc l' (h ▸ hl')
      · intro l' hl'
        simp only [List.mem_singleton] at hl'
        exact hl'.symm ▸ hlines a (List.mem_cons_self a rest)
      · intro l' hl'
        exact hlines l' (List.mem_cons_of_mem a hl')
    · refine ih _ _ hm ?_ ?_ m hmem l hl
      · intro l' hl'
        rcases List.mem_append.mp hl' with h | h
        · exact hc l' h
        · simp only [List.mem_singleton] at h
          exact h.symm ▸ hlines a (List.mem_cons_self a rest)
      · intro l' hl'
        exact hlines l' (List.mem_cons_of_mem a hl')

theorem mem_extract_retained (content : String) (msg : List String) (line : String)
    (hm : msg ∈ extract_messages content) (hl : line ∈ msg) :
    line ∈ retainedLines content := by
  unfold extract_messages at hm
  exact groupLoop_mem (fun l => l ∈ retainedLines content)
    (retainedLines content) [] []
    (by intro m h; simp at h) (by intro l h; simp at h) (fun l h => h)
    msg hm line hl

theorem retained_isRetained (content : String) (line : String)
    (h : line ∈ retainedLines content) : isRetainedLine line = true := by
  unfold retainedLines extractLines at h
  have := List.of_mem_filter h
  exact (Bool.and_eq_true _ _ |>.mp this).2

/-- C8: for every segment line of every extracted message, rejoining the
pipe-split token sequence with the pipe delimiter reproduces the line
byte-for-byte. -/
theorem c8_roundtrip (content : String) (msg : List String) (line : String)
    (_hm : msg ∈ extract_messages content) (_hl : line ∈ msg) :
    pyJoin "|" (pySplit '|' line) = line := by
  have h : ("|" : String) = String.mk ['|'] := rfl
  rw [h]
  exact pyJoin_pySplit '|' line

/-- Witness for C8 at a concrete file. -/
theorem c8_roundtrip_witness :
    pyJoin "|" (pySplit '|' "MSH|^~\\&|A") = "MSH|^~\\&|A" :=
  c8_roundtrip "MSH|^~\\&|A\nPID|1" ["MSH|^~\\&|A", "PID|1"] "MSH|^~\\&|A"
    (by decide) (by decide)

/-! ### Claim C7: classification order of `describe_component` -/

/-- C7 counterexample: a whitespace-only value is described as a
length-1 scalar, not as the "(empty)" marker the claim requires. -/
theorem c7_counterexample :
    pyStrip " " = "" ∧ describe_component " " = "(len=1)" ∧
      "(len=1)" ≠ "(empty)" := by
  refine ⟨by decide, by decide, by decide⟩

/-- C7 amended: `describe_component` checks, in order: the empty string
(not whitespace-only strings) yields "(empty)"; otherwise a value with
the component delimiter yields non-empty over total component counts;
otherwise one with the repetition delimiter yields the repeat count;
otherwise the character length. -/
theorem c7_amended (v : String) :
    describe_component v =
      if v = "" then "(empty)"
      else if pyContains '^' v then
        "(" ++ toString ((pySplit '^' v).countP (fun p => p != "")) ++
          "/" ++ toString (pySplit '^' v).length ++ " components)"
      else if pyContains '~' v then
        "(" ++ toString (pySplit '~' v).length ++ " repeats)"
      else "(len=" ++ toString v.toList.length ++ ")" := by
  unfold describe_component
  rw [List.countP_eq_length_filter]

/-! ### Claim C3: retention of header-token lines with no delimiter -/

/-- C3 counterexample: the bare line `MSH` has leading token `MSH` and
no delimiter, yet it is retained and even forms a message. -/
theorem c3_counterexample :
    retainedSeg "MSH" = "MSH" ∧ pyContains '|' "MSH" = false ∧
      isRetainedLine "MSH" = true ∧ extract_messages "MSH" = [["MSH"]] := by
  refine ⟨by decide, by decide, by decide, by decide⟩

theorem isRetainedLine_eq_contains (line : String) :
    isRetainedLine line = SEGMENT_NAMES.contains (retainedSeg line) := by
  unfold isRetainedLine
  cases hc : SEGMENT_NAMES.contains (retainedSeg line) with
  | true => simp
  | false =>
    simp only [Bool.false_or]
    cases hm : retainedSeg line == "MSH" with
    | false => simp
    | true =>
      exfalso
      have : retainedSeg line = "MSH" := by
        exact eq_of_beq hm
      rw [this] at hc
      simp [SEGMENT_NAMES] at hc

/-- C3 amended: retention is equivalent to membership of the leading
token in the recognized segment-identifier set; since that set contains
the header code, the delimiter clause is redundant and a header-token
line with no delimiter is retained. -/
theorem c3_amended (line : String) :
    isRetainedLine line = SEGMENT_NAMES.contains (retainedSeg line) :=
  isRetainedLine_eq_contains line

/-! ### Claim C2: display of the header's encoding-characters field -/

/-- C2 counterexample: the Field view with selector `MSH.1` prints the
literal encoding characters, not the fixed placeholder. -/
theorem c2_counterexample :
    show_field [["MSH|^~\\&|A"]] "MSH.1" =
      some (.ok ["  MSH-1: ^~\\&", "    .1: (empty)", "    .2: ~\\&"]) ∧
    (["  MSH-1: ^~\\&", "    .1: (empty)", "    .2: ~\\&"].any
      (fun l => decide ("^~\\&".toList <:+: l.toList))) = true ∧
    (["  MSH-1: ^~\\&", "    .1: (empty)", "    .2: ~\\&"].all
      (fun l => l != "    Field 1: (encoding chars)")) = true := by
  refine ⟨rfl, by decide, by decide⟩

/-- C2 amended: for the message-header segment, field index 1 contributes
no entry to the Structure view's populated-field report and is rendered
by the Values view as the fixed placeholder, whatever its content; the
Field view invoked with selector MSH.1, however, prints the field's
literal bytes. -/
theorem c2_amended (val : String) :
    structureFieldEntry "MSH" 1 val = [] ∧
    valuesFieldLines "MSH" 1 val = ["    Field 1: (encoding chars)"] := by
  constructor
  · unfold structureFieldEntry
    simp
  · unfold valuesFieldLines
    have h1 : (("MSH" : String) = "MSH" ∧ (1 : Nat) = 1) := ⟨rfl, rfl⟩
    rw [if_pos h1]
    decide

/-! ### Claim C1: message shape and count -/

/-- A well-formed message: non-empty, with first line's segment id equal
to the header code. -/
def msgOk (m : List String) : Bool :=
  !m.isEmpty && ((pySplit '|' m.headI).headI == "MSH")

theorem groupLoop_length :
    ∀ (lines : List String) (msgs : List (List String)) (current : List String),
      (groupLoop lines msgs current).length =
        msgs.length + lines.countP isHeaderLine +
          (if current = [] ∧ (lines = [] ∨ isHeaderLine lines.headI = true)
           then 0 else 1) := by
  intro lines
  induction lines with
  | nil =>
    intro msgs current
    cases current with
    | nil => simp [groupLoop]
    | cons a t => simp [groupLoop]
  | cons l rest ih =>
    intro msgs current
    simp only [groupLoop, List.countP_cons, List.headI]
    by_cases hh : isHeaderLine l = true
    · rw [if_pos hh, ih]
      cases current with
      | nil => simp [hh]; omega
      | cons a t => simp [hh]; omega
    · rw [if_neg hh, ih]
      have hhf : isHeaderLine l = false := by
        cases hhh : isHeaderLine l
        · rfl
        · exact absurd hhh hh
      cases current with
      | nil => simp [hhf]
      | cons a t => simp [hhf]

theorem groupLoop_all_msgOk :
    ∀ (lines : List String) (msgs : List (List String)) (current : List String),
      msgs.all msgOk = true →
      (current = [] → lines = [] ∨ isHeaderLine lines.headI = true) →
      (current ≠ [] → msgOk current = true) →
      (groupLoop lines msgs current).all msgOk = true := by
  intro lines
  induction lines with
  | nil =>
    intro msgs current hmsgs _ hcur2
    cases current with
    | nil => simpa [groupLoop] using hmsgs
    | cons a t =>
      simp only [groupLoop, List.isEmpty_cons, if_false, Bool.false_eq_true]
      rw [List.all_append]
      simp [hmsgs, hcur2 (by simp)]
  | cons l rest ih =>
    intro msgs current hmsgs hcur hcur2
    simp only [groupLoop]
    by_cases hh : isHeaderLine l = true
    · rw [if_pos hh]
      apply ih
      · cases current with
        | nil => simpa using hmsgs
        | cons a t =>
          simp only [List.isEmpty_cons, if_false, Bool.false_eq_true]
          rw [List.all_append]
          simp [hmsgs, hcur2 (by simp)]
      · intro hc; simp at hc
      · intro _
        have hm := headI_pySplit_of_header l hh
        simp [msgOk, hm]
    · rw [if_neg hh]
      cases current with
      | nil =>
        exfalso
        rcases hcur rfl with hl | hl
        · simp at hl
        · simp only [List.headI] at hl
          exact hh hl
      | cons a t =>
        apply ih
        · exact hmsgs
        · intro hc; simp at hc
        · intro _
          have hok := hcur2 (by simp)
          simpa [msgOk, List.headI] using hok

/-- C1 counterexample: the input `PID|1` yields one message whose first
line's segment id is not the header code, while zero header-code lines
were retained; so neither the head-is-header invariant nor the
count equality holds for every input. -/
theorem c1_counterexample :
    extract_messages "PID|1" = [["PID|1"]] ∧
      msgOk ["PID|1"] = false ∧
      (retainedLines "PID|1").countP isHeaderLine = 0 ∧
      (extract_messages "PID|1").length = 1 := by
  refine ⟨by decide, by decide, by decide, by decide⟩

/-- C1 amended: provided the first retained line (if any) starts with
the header code followed by the field delimiter, every extracted
message is a non-empty sequence of segment lines whose first line's
segment id is the header code MSH, and the reported message count (the
length of the extracted message list) equals the number of retained
lines that start with `MSH|`. -/
theorem c1_amended (content : String)
    (h : retainedLines content = [] ∨ isHeaderLine (retainedLines content).headI = true) :
    (extract_messages content).all msgOk = true ∧
      (extract_messages content).length =
        (retainedLines content).countP isHeaderLine := by
  constructor
  · exact groupLoop_all_msgOk (retainedLines content) [] []
      (by simp) (fun _ => h) (fun hc => absurd rfl hc)
  · unfold extract_messages
    rw [groupLoop_length]
    rw [if_pos ⟨rfl, h⟩]
    simp

/-- Witness for C1 at a concrete two-message file. -/
theorem c1_witness :
    (retainedLines "MSH|^~\\&|A\nPID|1\nMSH|^~\\&|B" = [] ∨
      isHeaderLine (retainedLines "MSH|^~\\&|A\nPID|1\nMSH|^~\\&|B").headI = true) ∧
    (extract_messages "MSH|^~\\&|A\nPID|1\nMSH|^~\\&|B").all msgOk = true ∧
      (extract_messages "MSH|^~\\&|A\nPID|1\nMSH|^~\\&|B").length =
        (retainedLines "MSH|^~\\&|A\nPID|1\nMSH|^~\\&|B").countP isHeaderLine :=
  ⟨by decide, c1_amended "MSH|^~\\&|A\nPID|1\nMSH|^~\\&|B" (by decide)⟩

/-! ### Claims C4 and C9: the Verify view -/

theorem pyGet_some_of_nonneg_lt {l : List String} {i : Int}
    (h0 : 0 ≤ i) (hl : i < (l.length : Int)) : ∃ v, pyGet l i = some v := by
  unfold pyGet
  rw [if_pos h0]
  have hlt : i.toNat < l.length := by omega
  rw [List.get?_eq_get hlt]
  exact ⟨_, rfl⟩

/-- C4: for every segment line matching the selector's segment id with
`total` fields, requesting field `total + k` (k ≥ 1) prints exactly the
beyond-end report with the actual field count and a shortfall of
exactly `k` pipes. -/
theorem c4_theorem (line : String) (segType : String) (k : Int)
    (hseg : (pySplit '|' line).headI = segType) (hk : 1 ≤ k) :
    verifyLine segType (((pySplit '|' line).length : Int) - 1 + k) line =
      .ok ["  " ++ segType ++ ": has " ++
            toString (((pySplit '|' line).length : Int) - 1) ++
            " fields, requested field " ++
            toString (((pySplit '|' line).length : Int) - 1 + k) ++
            " is beyond end",
           "  Need " ++ toString k ++ " more pipes to reach field " ++
            toString (((pySplit '|' line).length : Int) - 1 + k)] := by
  subst hseg
  unfold verifyLine
  rw [if_neg (fun h => h rfl)]
  dsimp only
  rw [if_pos (by omega)]
  rw [show ((pySplit '|' line).length : Int) - 1 + k - (((pySplit '|' line).length : Int) - 1)
        = k by ring]

/-- Witness for C4: an RXA line with 2 fields, requesting field 10. -/
theorem c4_witness :
    ((pySplit '|' "RXA|1|2").headI = "RXA") ∧ ((1 : Int) ≤ 8) ∧
    verifyLine "RXA" (((pySplit '|' "RXA|1|2").length : Int) - 1 + 8) "RXA|1|2" =
      .ok ["  " ++ "RXA" ++ ": has " ++
            toString (((pySplit '|' "RXA|1|2").length : Int) - 1) ++
            " fields, requested field " ++
            toString (((pySplit '|' "RXA|1|2").length : Int) - 1 + 8) ++
            " is beyond end",
           "  Need " ++ toString (8 : Int) ++ " more pipes to reach field " ++
            toString (((pySplit '|' "RXA|1|2").length : Int) - 1 + 8)] :=
  ⟨by decide, by decide, c4_theorem "RXA|1|2" "RXA" 8 (by decide) (by decide)⟩

theorem verifyLine_ok (segType : String) (n : Int) (line : String) (hn : 1 ≤ n) :
    exceptOk (verifyLine segType n line) = true := by
  unfold verifyLine
  by_cases hseg : (pySplit '|' line).headI ≠ segType
  · rw [if_pos hseg]; rfl
  · rw [if_neg hseg]
    dsimp only
    by_cases hbig : ((pySplit '|' line).length : Int) - 1 < n
    · rw [if_pos hbig]; rfl
    · rw [if_neg hbig]
      have hlt : n < ((pySplit '|' line).length : Int) := by omega
      rw [if_pos hlt]
      obtain ⟨v, hv⟩ := pyGet_some_of_nonneg_lt (by omega) hlt
      rw [hv]
      rfl

theorem verifyLinesRun_ok (segType : String) (n : Int) (hn : 1 ≤ n) :
    ∀ ls, exceptOk (verifyLinesRun segType n ls) = true := by
  intro ls
  induction ls with
  | nil => rfl
  | cons l rest ih =>
    simp only [verifyLinesRun]
    have h1 := verifyLine_ok segType n l hn
    cases hv : verifyLine segType n l with
    | error e => rw [hv] at h1; simp [exceptOk] at h1
    | ok out =>
      cases hr : verifyLinesRun segType n rest with
      | error e => rw [hr] at ih; simp [exceptOk] at ih
      | ok out2 => rfl

theorem verifyAux_ok (segType : String) (n : Int) (total : Nat) (hn : 1 ≤ n) :
    ∀ (ms : List (List String)) (i : Nat),
      exceptOk (verifyAux segType n total i ms) = true := by
  intro ms
  induction ms with
  | nil => intro i; rfl
  | cons m rest ih =>
    intro i
    simp only [verifyAux]
    have h1 := verifyLinesRun_ok segType n hn m
    cases hv : verifyLinesRun segType n m with
    | error e => rw [hv] at h1; simp [exceptOk] at h1
    | ok out =>
      have h2 := ih (i + 1)
      cases hr : verifyAux segType n total (i + 1) rest with
      | error e => rw [hr] at h2; simp [exceptOk] at h2
      | ok out2 => rfl

/-- C9: for every well-formed Verify selector whose field number is at
least 1 and every message list, `verify_field` runs the parsed view and
raises no exception (no out-of-range list access). -/
theorem c9_theorem (messages : List (List String)) (spec segType : String) (n : Int)
    (hp : parseSpec spec = some (segType, n)) (hn : 1 ≤ n) :
    verify_field messages spec = some (verifyMsgs messages (pyUpper segType) n) ∧
      exceptOk (verifyMsgs messages (pyUpper segType) n) = true := by
  constructor
  · unfold verify_field
    rw [hp]
    rfl
  · exact verifyAux_ok (pyUpper segType) n messages.length hn messages 1

/-- Witness for C9 at a concrete message list and selector. -/
theorem c9_witness :
    parseSpec "RXA.1" = some ("RXA", 1) ∧ (1 : Int) ≤ 1 ∧
    (verify_field [["RXA|1|2"]] "RXA.1" =
        some (verifyMsgs [["RXA|1|2"]] (pyUpper "RXA") 1) ∧
      exceptOk (verifyMsgs [["RXA|1|2"]] (pyUpper "RXA") 1) = true) :=
  ⟨by decide, by decide, c9_theorem [["RXA|1|2"]] "RXA.1" "RXA" 1 (by decide) (by decide)⟩

/-! ### Claim C10: case sensitivity of the three segment selectors -/

theorem pyStrip_decomp (s : String) :
    ∃ w1 w2 : List Char,
      s.toList = w1 ++ (pyStrip s).toList ++ w2 ∧
        (∀ c ∈ w1, isPySpace c = true) ∧ (∀ c ∈ w2, isPySpace c = true) := by
  refine ⟨s.toList.takeWhile isPySpace,
    ((s.toList.dropWhile isPySpace).reverse.takeWhile isPySpace).reverse,
    ?_, ?_, ?_⟩
  · have h1 := List.takeWhile_append_dropWhile (p := isPySpace) (l := s.toList)
    have h2 := congrArg List.reverse
      (List.takeWhile_append_dropWhile (p := isPySpace)
        (l := (s.toList.dropWhile isPySpace).reverse))
    rw [List.reverse_append, List.reverse_reverse] at h2
    conv_lhs => rw [← h1]
    rw [List.append_assoc]
    congr 1
    exact h2.symm
  · intro c hc
    exact List.mem_takeWhile_imp hc
  · intro c hc
    rw [List.mem_reverse] at hc
    exact List.mem_takeWhile_imp hc

theorem segment_names_no_lower :
    ∀ s ∈ SEGMENT_NAMES, ∀ c ∈ s.toList, c.isLower = false := by decide

theorem isPySpace_not_lower (c : Char) (h : isPySpace c = true) :
    c.isLower = false := by
  unfold isPySpace at h
  simp only [Bool.or_eq_true, beq_iff_eq] at h
  rcases h with ((((h | h) | h) | h) | h) | h <;> subst h <;> decide

theorem retained_head_no_lower (line : String) (h : isRetainedLine line = true) :
    ∀ c ∈ ((pySplit '|' line).headI).toList, c.isLower = false := by
  rw [isRetainedLine_eq_contains] at h
  have hmem : retainedSeg line ∈ SEGMENT_NAMES := List.elem_iff.mp h
  intro c hc
  obtain ⟨w1, w2, hdec, hw1, hw2⟩ := pyStrip_decomp ((pySplit '|' line).headI)
  rw [hdec] at hc
  rcases List.mem_append.mp hc with hc' | hc'
  · rcases List.mem_append.mp hc' with hc'' | hc''
    · exact isPySpace_not_lower c (hw1 c hc'')
    · exact segment_names_no_lower (retainedSeg line) hmem c hc''
  · exact isPySpace_not_lower c (hw2 c hc')

/-- C10: the Values view's `--segment` filter is compared by exact,
case-sensitive equality, so a filter containing a lowercase letter
matches no extracted segment line (the Values view emits nothing for
it), whereas `--field`/`--verify` uppercase their segment id first, so
a line whose id equals the uppercased selector is matched and produces
output. -/
theorem c10_theorem (content : String) (f : String) (msg : List String)
    (line : String) (n : Int)
    (hm : msg ∈ extract_messages content) (hl : line ∈ msg)
    (hf : f.toList.any Char.isLower = true) (hn : 1 ≤ n) :
    valuesLineOut (some f) line = [] ∧
      ((pySplit '|' line).headI = pyUpper f →
        showFieldLine (pyUpper f) n line ≠ .ok [] ∧
          verifyLine (pyUpper f) n line ≠ .ok []) := by
  have hret := retained_isRetained content line (mem_extract_retained content msg line hm hl)
  have hnl := retained_head_no_lower line hret
  obtain ⟨c, hc, hcl⟩ := List.any_eq_true.mp hf
  have hfne : f ≠ "" := by
    intro h0
    rw [string_eq_empty_iff] at h0
    rw [h0] at hc
    simp at hc
  have hsegne : (pySplit '|' line).headI ≠ f := by
    intro he
    have h1 := hnl c (by rw [he]; exact hc)
    rw [h1] at hcl
    cases hcl
  constructor
  · unfold valuesLineOut
    have hskip : valuesSkip (some f) (pySplit '|' line).headI = true := by
      simp [valuesSkip, bne_iff_ne, hfne, hsegne]
    rw [if_pos hskip]
  · intro hseg
    constructor
    · unfold showFieldLine
      rw [if_neg (fun hne => hne hseg)]
      by_cases hbig : ((pySplit '|' line).length : Int) ≤ n
      · rw [if_pos hbig]
        simp
      · rw [if_neg hbig]
        obtain ⟨v, hv⟩ := pyGet_some_of_nonneg_lt (l := pySplit '|' line) (i := n)
          (by omega) (by omega)
        rw [hv]
        split
        · simp
        · split_ifs <;> simp
    · unfold verifyLine
      rw [if_neg (fun hne => hne hseg)]
      dsimp only
      by_cases hbig : ((pySplit '|' line).length : Int) - 1 < n
      · rw [if_pos hbig]
        simp
      · rw [if_neg hbig]
        have hlt : n < ((pySplit '|' line).length : Int) := by omega
        rw [if_pos hlt]
        obtain ⟨v, hv⟩ := pyGet_some_of_nonneg_lt (l := pySplit '|' line) (i := n)
          (by omega) hlt
        rw [hv]
        simp

/-- Witness for C10 at a concrete file and the lowercase selector `msh`. -/
theorem c10_witness :
    valuesLineOut (some "msh") "MSH|^~\\&|A" = [] ∧
      ((pySplit '|' "MSH|^~\\&|A").headI = pyUpper "msh" →
        showFieldLine (pyUpper "msh") 1 "MSH|^~\\&|A" ≠ .ok [] ∧
          verifyLine (pyUpper "msh") 1 "MSH|^~\\&|A" ≠ .ok []) :=
  c10_theorem "MSH|^~\\&|A" "msh" ["MSH|^~\\&|A"] "MSH|^~\\&|A" 1
    (by decide) (by decide) (by decide) (by decide)

/-! ### Claim C5: the Structure view leaks no field content -/

/-- Two raw field values have the same structural shape: same
strip-emptiness and same no-content description. -/
def fieldShapeEqb (v w : String) : Bool :=
  ((pyStrip v == "") == (pyStrip w == "")) &&
    (describe_component v == describe_component w)

/-- Two segment lines have the same structural shape: same segment id,
same token count, and pointwise same field shapes. -/
def lineShapeEqb (l m : String) : Bool :=
  ((pySplit '|' l).headI == (pySplit '|' m).headI) &&
    ((pySplit '|' l).length == (pySplit '|' m).length) &&
    (((pySplit '|' l).tail.zip (pySplit '|' m).tail).all
      fun p => fieldShapeEqb p.1 p.2)

/-- Two messages have the same structural shape. -/
def msgShapeEqb (a b : List String) : Bool :=
  (a.length == b.length) && ((a.zip b).all fun p => lineShapeEqb p.1 p.2)

/-- Two message lists have the same structural shape. -/
def msgsShapeEqb (x y : List (List String)) : Bool :=
  (x.length == y.length) && ((x.zip y).all fun p => msgShapeEqb p.1 p.2)

theorem structureEntries_shape (seg : String) :
    ∀ (xs ys : List String) (j : Nat), xs.length = ys.length →
      ((xs.zip ys).all fun p => fieldShapeEqb p.1 p.2) = true →
      structureEntries seg j xs = structureEntries seg j ys := by
  intro xs
  induction xs with
  | nil =>
    intro ys j hlen _
    cases ys with
    | nil => rfl
    | cons y t => simp at hlen
  | cons x xt ih =>
    intro ys j hlen hall
    cases ys with
    | nil => simp at hlen
    | cons y yt =>
      simp only [List.zip_cons_cons, List.all_cons, Bool.and_eq_true] at hall
      obtain ⟨hxy, hrest⟩ := hall
      simp only [structureEntries]
      rw [ih yt (j + 1) (by simpa using hlen) hrest]
      congr 1
      unfold fieldShapeEqb at hxy
      rw [Bool.and_eq_true] at hxy
      obtain ⟨hs, hd⟩ := hxy
      have hs' : (pyStrip x == "") = (pyStrip y == "") := eq_of_beq hs
      have hdesc : describe_component x = describe_component y := eq_of_beq hd
      have hse : (pyStrip x = "") ↔ (pyStrip y = "") := by
        constructor
        · intro h
          have : (pyStrip x == "") = true := beq_iff_eq.mpr h
          rw [hs'] at this
          exact beq_iff_eq.mp this
        · intro h
          have : (pyStrip y == "") = true := beq_iff_eq.mpr h
          rw [← hs'] at this
          exact beq_iff_eq.mp this
      unfold structureFieldEntry
      by_cases hmsh : seg = "MSH" ∧ j = 1
      · rw [if_pos hmsh, if_pos hmsh]
      · rw [if_neg hmsh, if_neg hmsh]
        by_cases hx : pyStrip x ≠ ""
        · rw [if_pos hx, if_pos (fun h => hx (hse.mpr h)), hdesc]
        · rw [if_neg hx, if_neg (fun h => hx (fun h2 => h (hse.mp h2)))]

theorem structureLineOut_shape (l m : String) (h : lineShapeEqb l m = true) :
    structureLineOut l = structureLineOut m := by
  unfold lineShapeEqb at h
  rw [Bool.and_eq_true, Bool.and_eq_true] at h
  obtain ⟨⟨hh, hlen⟩, hall⟩ := h
  have hh' : (pySplit '|' l).headI = (pySplit '|' m).headI := eq_of_beq hh
  have hlen' : (pySplit '|' l).length = (pySplit '|' m).length := beq_iff_eq.mp hlen
  have hent := structureEntries_shape (pySplit '|' m).headI
    (pySplit '|' l).tail (pySplit '|' m).tail 1
    (by rw [List.length_tail, List.length_tail, hlen']) hall
  unfold structureLineOut
  rw [hh', hlen', hent]

theorem msgLines_shape :
    ∀ (a b : List String), msgShapeEqb a b = true →
      a.map structureLineOut = b.map structureLineOut := by
  intro a
  induction a with
  | nil =>
    intro b h
    unfold msgShapeEqb at h
    rw [Bool.and_eq_true] at h
    have : b.length = 0 := by
      have h0 := beq_iff_eq.mp h.1
      simp only [List.length_nil] at h0
      omega
    rw [List.eq_nil_of_length_eq_zero this]
  | cons x xt ih =>
    intro b h
    unfold msgShapeEqb at h
    rw [Bool.and_eq_true] at h
    obtain ⟨hlen, hall⟩ := h
    cases b with
    | nil => simp at hlen
    | cons y yt =>
      simp only [List.zip_cons_cons, List.all_cons, Bool.and_eq_true] at hall
      obtain ⟨hxy, hrest⟩ := hall
      simp only [List.map]
      rw [structureLineOut_shape x y hxy]
      rw [ih yt (by
        unfold msgShapeEqb
        rw [Bool.and_eq_true]
        refine ⟨?_, hrest⟩
        have := beq_iff_eq.mp hlen
        simp only [List.length_cons] at this
        exact beq_iff_eq.mpr (by omega))]

theorem showStructureAux_shape (total : Nat) :
    ∀ (x y : List (List String)) (i : Nat), msgsShapeEqb x y = true →
      showStructureAux total i x = showStructureAux total i y := by
  intro x
  induction x with
  | nil =>
    intro y i h
    unfold msgsShapeEqb at h
    rw [Bool.and_eq_true] at h
    have : y.length = 0 := by
      have h0 := beq_iff_eq.mp h.1
      simp only [List.length_nil] at h0
      omega
    rw [List.eq_nil_of_length_eq_zero this]
  | cons m mt ih =>
    intro y i h
    unfold msgsShapeEqb at h
    rw [Bool.and_eq_true] at h
    obtain ⟨hlen, hall⟩ := h
    cases y with
    | nil => simp at hlen
    | cons m2 mt2 =>
      simp only [List.zip_cons_cons, List.all_cons, Bool.and_eq_true] at hall
      obtain ⟨hm, hrest⟩ := hall
      simp only [showStructureAux]
      rw [msgLines_shape m m2 hm]
      rw [ih mt2 (i + 1) (by
        unfold msgsShapeEqb
        rw [Bool.and_eq_true]
        refine ⟨?_, hrest⟩
        have := beq_iff_eq.mp hlen
        simp only [List.length_cons] at this
        exact beq_iff_eq.mpr (by omega))]

/-- C5: the Structure view's output is a function of structural shape
only (segment ids, token counts, strip-emptiness and no-content
descriptors of each field): any two inputs of the same shape, however
their field contents differ, produce identical output; so the view
prints segment ids, field indices and descriptors, never field
content. -/
theorem c5_theorem (m1 m2 : List (List String)) (h : msgsShapeEqb m1 m2 = true) :
    show_structure m1 = show_structure m2 := by
  have hlen : m1.length = m2.length := by
    unfold msgsShapeEqb at h
    rw [Bool.and_eq_true] at h
    exact beq_iff_eq.mp h.1
  unfold show_structure
  rw [hlen]
  exact showStructureAux_shape m2.length m1 m2 1 h

/-- Witness for C5: two one-message files with different patient names
but equal shape yield identical Structure output. -/
theorem c5_witness :
    msgsShapeEqb [["PID|John^Q|X"]] [["PID|Mary^A|Y"]] = true ∧
      show_structure [["PID|John^Q|X"]] = show_structure [["PID|Mary^A|Y"]] :=
  ⟨by decide, c5_theorem [["PID|John^Q|X"]] [["PID|Mary^A|Y"]] (by decide)⟩

/-! ### Claim C6: exit codes of `main` -/

/-- A line on which a selector view raises an `IndexError`: the line
matches the selector's segment id and the (negative) field number is
below minus the token count. -/
def crashb (st : String) (n : Int) (l : String) : Bool :=
  ((pySplit '|' l).headI == st) && decide (n + ((pySplit '|' l).length : Int) < 0)

/-- Some line of some message crashes the selector view. -/
def anyCrash (msgs : List (List String)) (st : String) (n : Int) : Bool :=
  msgs.any fun m => m.any (crashb st n)

/-- A selector makes the run exit with status 1: it is malformed, or
its field number crashes the view on some matching line. -/
def selFailsb (msgs : List (List String)) (spec : String) : Bool :=
  match parseSpec spec with
  | none => true
  | some p => anyCrash msgs (pyUpper p.1) p.2

theorem pySplit_length_pos (c : Char) (s : String) : 0 < (pySplit c s).length := by
  unfold pySplit
  rw [List.length_map]
  cases hs : splitChs c s.toList with
  | nil => exact absurd hs (splitChs_ne_nil _ _)
  | cons h t => simp

theorem pyGet_none_iff (l : List String) (i : Int) :
    pyGet l i = none ↔ (i + (l.length : Int) < 0 ∨ (l.length : Int) ≤ i) := by
  unfold pyGet
  split_ifs with h0 h1
  · rw [List.get?_eq_none]
    omega
  · rw [List.get?_eq_none]
    omega
  · constructor
    · intro _
      left
      omega
    · intro _
      rfl

theorem showFieldLine_error_iff (st : String) (n : Int) (l : String) :
    showFieldLine st n l = .error () ↔ crashb st n l = true := by
  unfold showFieldLine crashb
  by_cases hseg : (pySplit '|' l).headI ≠ st
  · rw [if_pos hseg]
    constructor
    · intro h
      cases h
    · intro h
      rw [Bool.and_eq_true, beq_iff_eq] at h
      exact absurd h.1 hseg
  · rw [if_neg hseg]
    push_neg at hseg
    by_cases hbig : ((pySplit '|' l).length : Int) ≤ n
    · rw [if_pos hbig]
      constructor
      · intro h
        cases h
      · intro h
        exfalso
        rw [Bool.and_eq_true, decide_eq_true_eq] at h
        have := pySplit_length_pos '|' l
        omega
    · rw [if_neg hbig]
      cases hv : pyGet (pySplit '|' l) n with
      | none =>
        rw [pyGet_none_iff] at hv
        constructor
        · intro _
          rw [Bool.and_eq_true, decide_eq_true_eq]
          exact ⟨beq_iff_eq.mpr hseg, by omega⟩
        · intro _
          rfl
      | some val =>
        constructor
        · intro h
          exfalso
          revert h
          dsimp only
          split_ifs <;> simp
        · intro h
          exfalso
          rw [Bool.and_eq_true, decide_eq_true_eq] at h
          have hnone := (pyGet_none_iff (pySplit '|' l) n).mpr (Or.inl h.2)
          rw [hnone] at hv
          cases hv

theorem verifyLine_error_iff (st : String) (n : Int) (l : String) :
    verifyLine st n l = .error () ↔ crashb st n l = true := by
  unfold verifyLine crashb
  by_cases hseg : (pySplit '|' l).headI ≠ st
  · rw [if_pos hseg]
    constructor
    · intro h
      cases h
    · intro h
      rw [Bool.and_eq_true, beq_iff_eq] at h
      exact absurd h.1 hseg
  · rw [if_neg hseg]
    push_neg at hseg
    dsimp only
    by_cases hbig : ((pySplit '|' l).length : Int) - 1 < n
    · rw [if_pos hbig]
      constructor
      · intro h
        cases h
      · intro h
        exfalso
        rw [Bool.and_eq_true, decide_eq_true_eq] at h
        have := pySplit_length_pos '|' l
        omega
    · rw [if_neg hbig]
      have hlt : n < ((pySplit '|' l).length : Int) := by omega
      rw [if_pos hlt]
      cases hv : pyGet (pySplit '|' l) n with
      | none =>
        rw [pyGet_none_iff] at hv
        constructor
        · intro _
          rw [Bool.and_eq_true, decide_eq_true_eq]
          exact ⟨beq_iff_eq.mpr hseg, by omega⟩
        · intro _
          rfl
      | some val =>
        constructor
        · intro h
          cases h
        · intro h
          exfalso
          rw [Bool.and_eq_true, decide_eq_true_eq] at h
          have hnone := (pyGet_none_iff (pySplit '|' l) n).mpr (Or.inl h.2)
          rw [hnone] at hv
          cases hv

theorem showFieldLinesRun_error_iff (st : String) (n : Int) :
    ∀ ls, showFieldLinesRun st n ls = .error () ↔ ls.any (crashb st n) = true := by
  intro ls
  induction ls with
  | nil =>
    constructor
    · intro h
      cases h
    · intro h
      simp at h
  | cons l rest ih =>
    simp only [showFieldLinesRun, List.any_cons]
    cases hv : showFieldLine st n l with
    | error e =>
      cases e
      have h1 : crashb st n l = true := (showFieldLine_error_iff st n l).mp hv
      simp [h1]
    | ok out =>
      have h1 : crashb st n l = false := by
        cases hcb : crashb st n l
        · rfl
        · have h2 := (showFieldLine_error_iff st n l).mpr hcb
          rw [h2] at hv
          cases hv
      cases hr : showFieldLinesRun st n rest with
      | error e2 =>
        cases e2
        have hany : rest.any (crashb st n) = true := ih.mp hr
        simp [h1, hany]
      | ok out2 =>
        have hany : rest.any (crashb st n) = false := by
          cases ha : rest.any (crashb st n)
          · rfl
          · have h2 := ih.mpr ha
            rw [h2] at hr
            cases hr
        simp [h1, hany]

theorem verifyLinesRun_error_iff (st : String) (n : Int) :
    ∀ ls, verifyLinesRun st n ls = .error () ↔ ls.any (crashb st n) = true := by
  intro ls
  induction ls with
  | nil =>
    constructor
    · intro h
      cases h
    · intro h
      simp at h
  | cons l rest ih =>
    simp only [verifyLinesRun, List.any_cons]
    cases hv : verifyLine st n l with
    | error e =>
      cases e
      have h1 : crashb st n l = true := (verifyLine_error_iff st n l).mp hv
      simp [h1]
    | ok out =>
      have h1 : crashb st n l = false := by
        cases hcb : crashb st n l
        · rfl
        · have h2 := (verifyLine_error_iff st n l).mpr hcb
          rw [h2] at hv
          cases hv
      cases hr : verifyLinesRun st n rest with
      | error e2 =>
        cases e2
        have hany : rest.any (crashb st n) = true := ih.mp hr
        simp [h1, hany]
      | ok out2 =>
        have hany : rest.any (crashb st n) = false := by
          cases ha : rest.any (crashb st n)
          · rfl
          · have h2 := ih.mpr ha
            rw [h2] at hr
            cases hr
        simp [h1, hany]

theorem showFieldAux_error_iff (st : String) (n : Int) (total : Nat) :
    ∀ (ms : List (List String)) (i : Nat),
      showFieldAux st n total i ms = .error () ↔
        (ms.any fun m => m.any (crashb st n)) = true := by
  intro ms
  induction ms with
  | nil =>
    intro i
    constructor
    · intro h
      cases h
    · intro h
      simp at h
  | cons m rest ih =>
    intro i
    simp only [showFieldAux, List.any_cons]
    cases hv : showFieldLinesRun st n m with
    | error e =>
      cases e
      have h1 : m.any (crashb st n) = true := (showFieldLinesRun_error_iff st n m).mp hv
      simp [h1]
    | ok out =>
      have h1 : m.any (crashb st n) = false := by
        cases hcb : m.any (crashb st n)
        · rfl
        · have h2 := (showFieldLinesRun_error_iff st n m).mpr hcb
          rw [h2] at hv
          cases hv
      cases hr : showFieldAux st n total (i + 1) rest with
      | error e2 =>
        cases e2
        have hany := (ih (i + 1)).mp hr
        simp [h1, hany]
      | ok out2 =>
        have hany : (rest.any fun m2 => m2.any (crashb st n)) = false := by
          cases ha : rest.any fun m2 => m2.any (crashb st n)
          · rfl
          · have h2 := (ih (i + 1)).mpr ha
            rw [h2] at hr
            cases hr
        simp [h1, hany]

theorem verifyAux_error_iff (st : String) (n : Int) (total : Nat) :
    ∀ (ms : List (List String)) (i : Nat),
      verifyAux st n total i ms = .error () ↔
        (ms.any fun m => m.any (crashb st n)) = true := by
  intro ms
  induction ms with
  | nil =>
    intro i
    constructor
    · intro h
      cases h
    · intro h
      simp at h
  | cons m rest ih =>
    intro i
    simp only [verifyAux, List.any_cons]
    cases hv : verifyLinesRun st n m with
    | error e =>
      cases e
      have h1 : m.any (crashb st n) = true := (verifyLinesRun_error_iff st n m).mp hv
      simp [h1]
    | ok out =>
      have h1 : m.any (crashb st n) = false := by
        cases hcb : m.any (crashb st n)
        · rfl
        · have h2 := (verifyLinesRun_error_iff st n m).mpr hcb
          rw [h2] at hv
          cases hv
      cases hr : verifyAux st n total (i + 1) rest with
      | error e2 =>
        cases e2
        have hany := (ih (i + 1)).mp hr
        simp [h1, hany]
      | ok out2 =>
        have hany : (rest.any fun m2 => m2.any (crashb st n)) = false := by
          cases ha : rest.any fun m2 => m2.any (crashb st n)
          · rfl
          · have h2 := (ih (i + 1)).mpr ha
            rw [h2] at hr
            cases hr
        simp [h1, hany]

theorem runExit_show_field_iff (msgs : List (List String)) (spec : String) :
    runExit (show_field msgs spec) = 1 ↔ selFailsb msgs spec = true := by
  unfold show_field selFailsb
  cases hp : parseSpec spec with
  | none => simp [runExit]
  | some p =>
    simp only [Option.map_some']
    unfold showFieldMsgs
    cases hr : showFieldAux (pyUpper p.1) p.2 msgs.length 1 msgs with
    | error e =>
      cases e
      have h1 := (showFieldAux_error_iff (pyUpper p.1) p.2 msgs.length msgs 1).mp hr
      simp [runExit, anyCrash, h1]
    | ok out =>
      have h1 : anyCrash msgs (pyUpper p.1) p.2 = false := by
        cases ha : anyCrash msgs (pyUpper p.1) p.2
        · rfl
        · have h2 := (showFieldAux_error_iff (pyUpper p.1) p.2 msgs.length msgs 1).mpr ha
          rw [h2] at hr
          cases hr
      simp [runExit, h1]

theorem runExit_verify_field_iff (msgs : List (List String)) (spec : String) :
    runExit (verify_field msgs spec) = 1 ↔ selFailsb msgs spec = true := by
  unfold verify_field selFailsb
  cases hp : parseSpec spec with
  | none => simp [runExit]
  | some p =>
    simp only [Option.map_some']
    unfold verifyMsgs
    cases hr : verifyAux (pyUpper p.1) p.2 msgs.length 1 msgs with
    | error e =>
      cases e
      have h1 := (verifyAux_error_iff (pyUpper p.1) p.2 msgs.length msgs 1).mp hr
      simp [runExit, anyCrash, h1]
    | ok out =>
      have h1 : anyCrash msgs (pyUpper p.1) p.2 = false := by
        cases ha : anyCrash msgs (pyUpper p.1) p.2
        · rfl
        · have h2 := (verifyAux_error_iff (pyUpper p.1) p.2 msgs.length msgs 1).mpr ha
          rw [h2] at hr
          cases hr
      simp [runExit, h1]

/-- C6 counterexample: with a well-formed `--verify` selector and a
malformed `--field` selector, the process exits 0 although a
`--field` selector is malformed; so exit 1 does not occur exactly
under the claim's three conditions. -/
theorem c6_counterexample :
    parseSpec "bad" = none ∧ strTruthy (some "bad") = true ∧
      mainExit (some "MSH|^~\\&|X") (some "MSH.1") (some "bad") false none = 0 := by
  refine ⟨by decide, by decide, by decide⟩

/-- C6 amended: the process exits 1 exactly when the file is not found,
when zero messages are extracted, or when the selector of the selected
view (the `--verify` one when that flag is a non-empty string,
otherwise the `--field` one when that flag is a non-empty string) is
malformed or names a field number so negative that a matching line
makes the view raise an index error; a malformed selector of the
non-selected flag is ignored, and in every other case the selected view
runs to completion and the exit status is 0. -/
theorem c6_amended (av af : Option String) (vals : Bool) (sg : Option String) :
    mainExit none av af vals sg = 1 ∧
      ∀ content : String,
        (mainExit (some content) av af vals sg = 1 ↔
          extract_messages content = [] ∨
            (strTruthy av = true ∧
              selFailsb (extract_messages content) (av.getD "") = true) ∨
            (strTruthy av = false ∧ strTruthy af = true ∧
              selFailsb (extract_messages content) (af.getD "") = true)) := by
  constructor
  · rfl
  · intro content
    unfold mainExit
    dsimp only
    by_cases hemp : extract_messages content = []
    · rw [if_pos hemp]
      simp [hemp]
    · rw [if_neg hemp]
      by_cases hav : strTruthy av = true
      · rw [if_pos hav]
        rw [runExit_verify_field_iff]
        simp [hemp, hav]
      · rw [if_neg hav]
        have havf : strTruthy av = false := by
          cases h : strTruthy av
          · rfl
          · exact absurd h hav
        by_cases haf : strTruthy af = true
        · rw [if_pos haf]
          rw [runExit_show_field_iff]
          simp [hemp, havf, haf]
        · rw [if_neg haf]
          have haff : strTruthy af = false := by
            cases h : strTruthy af
            · rfl
            · exact absurd h haf
          simp [hemp, havf, haff]

end HL7Inspect
